import Mathlib

/-!
Verification development for the Probe-Station repository.

Shallow embedding notes, applying to the whole file:

* Python floats are modelled as exact rationals (`ℚ`); every literal in the
  source is exactly representable and every claim-relevant computation is
  decimal arithmetic, so this is faithful except for float rounding, which no
  claim depends on.
* Python integers are modelled as `ℤ`; Python `x in range(a, b)` membership
  tests applied to a possibly-float value are modelled by `pyInIntRange`,
  which requires the value to be integral (Python value equality between a
  float and an int succeeds exactly when the float is integral).
* Several modules of the repository consult the limits registry through stale
  member names left over from an earlier revision of `limits.py` (a flat
  attribute style: `lims.curr[0]`, `lims.curr_default`, ...).  The only
  registry present in `src/` is the dict-style one in `limits.py`
  (`MagInfo.curr['lim']`, `MagInfo.curr['def']`, ...).  Definitions below
  resolve the stale names to the `src/limits.py` registry entries and each
  doc comment says so where it happens.
* Fallible code (list indexing on an empty list, missing dictionary keys) is
  modelled with `Except PyErr` / `Option`.
-/

namespace ProbeStation

/-- Python runtime errors that the modelled code can raise. -/
inductive PyErr where
  | nameError
  | attributeError
  | indexError
  | keyError
  | typeError
  deriving DecidableEq, Repr

/-- Python membership test `q in range(lo, hi)` for a numeric `q` that may be
a float: it holds exactly when `q` is an integral value in `[lo, hi)`. -/
def pyInIntRange (q : ℚ) (lo hi : ℤ) : Bool :=
  q.den == 1 && (decide (lo ≤ q.num) && decide (q.num < hi))

/-- A Python value that is a bool, an int or a float, as passed to setters
such as `set_low_meas` whose validation compares across those types. -/
inductive PyNum where
  | bool (b : Bool)
  | int (n : ℤ)
  | rat (q : ℚ)
  deriving DecidableEq, Repr

/-- Numeric value of a `PyNum` (Python compares bools, ints and floats by
numeric value: `True == 1`, `False == 0`). -/
def PyNum.toQ : PyNum → ℚ
  | .bool b => if b then 1 else 0
  | .int n => n
  | .rat q => q

/-- Python truthiness of a numeric value: nonzero is truthy. -/
def PyNum.truthy (v : PyNum) : Bool :=
  decide (v.toQ ≠ 0)

/-- Python `'' and b` / `a and b` on strings: `and` returns the first operand
if it is falsy (the empty string) and the second one otherwise. -/
def pyAndStr (a b : String) : String :=
  if a = "" then a else b

/-- Whether `p` occurs as a contiguous block inside `l`. -/
def containsSub (p : List Char) : List Char → Bool
  | [] => p.isEmpty
  | a :: t => p.isPrefixOf (a :: t) || containsSub p t

/-- Python substring test `needle in hay`. -/
def strContains (needle hay : String) : Bool :=
  containsSub needle.toList hay.toList

/-- Helper for `pySplit`: walk the character list, cutting at every comma
(`acc` holds the current piece, reversed). -/
def splitCommaAux : List Char → List Char → List String
  | [], acc => [String.mk acc.reverse]
  | c :: rest, acc =>
      if c = ',' then String.mk acc.reverse :: splitCommaAux rest []
      else splitCommaAux rest (c :: acc)

/-- Python `s.split(',')`: split on every comma, keeping empty pieces. -/
def pySplit (s : String) : List String :=
  splitCommaAux s.toList []

/-- Python `list.sort()` on numbers: stable ascending sort.  Over `ℚ` the
sorted permutation of a list is unique, so insertion sort is an exact model. -/
def pySort (l : List ℚ) : List ℚ :=
  l.insertionSort (· ≤ ·)

/-- Python slice with step, `l[::n]` (the elements whose position is a
multiple of `n`), used by `Keith.get_data` as `data_list[j::cols]` after a
`drop j`. -/
def takeEvery (n : Nat) (l : List α) : List α :=
  (l.enum.filter (fun p => p.1 % n == 0)).map (fun p => p.2)

/-! ## Magnet: registry entries (`src/limits.py`, class `MagInfo`) -/

namespace MagInfo

/-- Embeds `MagInfo.addr = {'lim': range(1, 11), 'def': 2}`. -/
def addr_def : ℤ := 2

/-- Embeds `MagInfo.seg = {'lim': range(1, 11), 'def': 1}`. -/
def seg_def : ℤ := 1

/-- Embeds `MagInfo.volt = {'lim': (0.001, 6), 'def': 2}`. -/
def volt_lim : ℚ × ℚ := (1e-3, 6)

/-- Default of `MagInfo.volt`. -/
def volt_def : ℚ := 2

/-- Embeds `MagInfo.curr = {'lim': (0, 26.3), 'def': 26.3}`. -/
def curr_lim : ℚ × ℚ := (0, 26.3)

/-- Default of `MagInfo.curr`. -/
def curr_def : ℚ := 26.3

/-- Embeds `MagInfo().field['lim'] = {0: 30, 1: 3, 2: 26.3}` (kilogauss, tesla,
amps). -/
def field_lim (fidx : Fin 3) : ℚ :=
  if fidx = 0 then 30 else if fidx = 1 then 3 else 26.3

/-- Embeds `MagInfo().field['def'] = {i: 0 for i in range(3)}`. -/
def field_def : ℚ := 0

end MagInfo

/-! ## Magnet controller (`src/AMI_430/magnet.py`, class `Mag`)

`magnet.py` refers to the registry by the stale module alias `lims`
(`lims.curr[0]`, `lims.curr_default`, `lims.seg[1]`, `lims.field[idx]`);
`src/` only contains the dict-style registry `limits.MagInfo`, which the
module imports as `info` and which is what the stale names denote (in CPython
the stale alias itself would raise `NameError`; the claims cite the
`MagInfo` entries, and the definitions below resolve to them). -/

namespace Mag

/-- Embeds `Mag.set_curr_limit`: out-of-bounds input is replaced by the registry
default; the replaced value is both stored and returned.  Bounds and default
resolve to `MagInfo.curr` of `src/limits.py`: `(0, 26.3)`, default `26.3`. -/
def set_curr_limit (limit : ℚ) : ℚ :=
  if ¬(MagInfo.curr_lim.1 ≤ limit ∧ limit ≤ MagInfo.curr_lim.2) then
    MagInfo.curr_def
  else limit

/-- Embeds `Mag.set_volt_limit`: same shape against `MagInfo.volt`. -/
def set_volt_limit (limit : ℚ) : ℚ :=
  if ¬(MagInfo.volt_lim.1 ≤ limit ∧ limit ≤ MagInfo.volt_lim.2) then
    MagInfo.volt_def
  else limit

/-- Embeds `Mag.set_target`: `if abs(targ) > info.field['lim'][fidx]: targ =
info.field['def'][fidx]`, then store and return. -/
def set_target (fidx : Fin 3) (targ : ℚ) : ℚ :=
  if |targ| > MagInfo.field_lim fidx then MagInfo.field_def else targ

/-- Embeds `Mag.set_ramp_segments`: `if segs not in range(lims.seg[1], 0, -1)`
(i.e. not an integer in 1..10) replace with the segment default `1`. -/
def set_ramp_segments (segs : ℚ) : ℚ :=
  if pyInIntRange segs 1 11 then segs else (MagInfo.seg_def : ℚ)

/-- Embeds `Instrument.address` property setter (`src/abcs/instrument_abc.py`):
an address outside `range(1, 11)` is replaced by the default `2`.
(`Mag.set_address` reaches this through the stale call
`super().set_address(addr)`, resolved to the address property.) -/
def set_address (addr : ℚ) : ℚ :=
  if pyInIntRange addr 1 11 then addr else (MagInfo.addr_def : ℚ)

/-- Embeds `Mag.set_setpoints_list` (`src/AMI_430/magnet.py` lines 120-137):
sorts the list; if its length is not in 1..10 it prints a rejection and
replaces the local list with `[]`; then it unconditionally evaluates
`abs(setpts[0]) > bound or abs(setpts[-1]) > bound` — on the emptied list this
indexing raises `IndexError` before anything is stored.  If the length check
passed, an out-of-bound first or last element empties the list; the result is
stored in `setpoints_list` and returned.  `bound = lims.field[fidx]` resolves
to `MagInfo.field_lim`. -/
def set_setpoints_list (fidx : Fin 3) (setpts : List ℚ) :
    Except PyErr (List ℚ) :=
  let bound := MagInfo.field_lim fidx
  let s0 := pySort setpts
  let s := if ¬(1 ≤ s0.length ∧ s0.length ≤ 10) then [] else s0
  match s.head?, s.getLast? with
  | some a, some b =>
      if |a| > bound ∨ |b| > bound then .ok [] else .ok s
  | _, _ => .error .indexError

end Mag

/-! ## Magnet wire driver (`src/AMI_430/visa_mag.py`, class `vMag`) -/

namespace vMag

/-- Embeds `vMag.check_connected(com)` (`src/AMI_430/visa_mag.py` lines 134-141):
`magnet_list = [x for x in self.instruments if (str(com) and 'ASRL') in x]`.
Note the condition is `(str(com) and 'ASRL') in x`: Python `and` evaluates to
`'ASRL'` because `str(com)` is a nonempty (truthy) string, so the filter
tests only `'ASRL' in x` and the address is ignored.  If the filtered list is
empty, `self.mag = None`; otherwise the first match is opened.  The returned
`Option` is the resource string opened (`none` models `self.mag = None`). -/
def check_connected (com : ℤ) (instruments : List String) : Option String :=
  match instruments.filter (fun x => strContains (pyAndStr (toString com) "ASRL") x) with
  | [] => none
  | x :: _ => some x

end vMag

/-! ## Keithley stack: registry entries (`src/limits.py`) -/

namespace KeithInfo

/-- Embeds `KeithInfo.fwindow = {'lim': (0.0, 10.0), 'def': 0.0}` (class attribute,
shared by every measurement mode). -/
def fwindow_lim : ℚ × ℚ := (0, 10)

/-- Default of `KeithInfo.fwindow`. -/
def fwindow_def : ℚ := 0

/-- Embeds `KeithInfo.fcount = {'lim': range(2, 301), 'def': 10}` (class attribute,
shared by every measurement mode). -/
def fcount_def : ℚ := 10

/-- Embeds `KeithInfo().points = {'lim': range(1, 65537), 'def': 11, ...}`. -/
def points_def : ℚ := 11

end KeithInfo

/-- Embeds `KeithMeasure.calc_num_points(start, stop, step)`
(`src/Keithley2182a_6221/keith_meas_abc.py` lines 148-155):
`out = abs((stop - start) // step) + 1`, with the `ZeroDivisionError` from a
zero step caught and converted to `out = 1`.  Python float floor-division is
`⌊(stop - start) / step⌋`. -/
def calc_num_points (start stop step : ℚ) : ℚ :=
  if step = 0 then 1 else ((|⌊(stop - start) / step⌋| : ℤ) : ℚ) + 1

namespace DconInfo

/-- Embeds `DconInfo().curr_step = {'lim': (0, 105.0e-3), 'def': 1.0e-6}`. -/
def curr_step_lim : ℚ × ℚ := (0, 105e-3)

/-- Default of `DconInfo().curr_step`. -/
def curr_step_def : ℚ := 1e-6

/-- Embeds `DconInfo().points['def'] = abs(((curr2_def - curr1_def) // curr_step_def)
+ 1)` with `curr1_def = -10e-6`, `curr2_def = 10e-6`, `curr_step_def = 1e-6`
(evaluates to 21). -/
def points_def : ℚ := ((|⌊(((10e-6 : ℚ) - (-10e-6)) / 1e-6)⌋ + 1| : ℤ) : ℚ)

end DconInfo

/-! ## Differential-conductance model
(`src/Keithley2182a_6221/keith_meas_types.py`, class `DiffCon`, over the base
`KeithMeasure` of `keith_meas_abc.py`, with bounds from `limits.DconInfo`). -/

/-- Mutable state of a `DiffCon` instance (the fields the claims touch). -/
structure DiffCon where
  curr1 : ℚ
  curr2 : ℚ
  curr_step : ℚ
  curr_delta : ℚ
  num_points : ℚ
  meas_rate : ℚ
  meas_delay : ℚ
  filter_idx : ℤ
  filter_type : String
  filter_on : Bool
  filter_window : ℚ
  filter_count : ℚ
  unit_idx : ℤ
  deriving DecidableEq, Repr

namespace DiffCon

/-- Embeds `DiffCon.__init__`: every field seeded from the `DconInfo` registry
defaults (`curr1 -10µA`, `curr2 10µA`, `curr_step 1µA`, `curr_delta 1µA`,
rate 1 PLC, delay 2 ms, filter index 1 with text `"Repeating"` — `DconInfo`
deletes the Moving entry and sets the default to 1 — filter off, window 0,
count 10, `points['def']` as recomputed by `DconInfo.__init__`). -/
def init : DiffCon where
  curr1 := -10e-6
  curr2 := 10e-6
  curr_step := DconInfo.curr_step_def
  curr_delta := 1e-6
  num_points := DconInfo.points_def
  meas_rate := 1
  meas_delay := 2e-3
  filter_idx := 1
  filter_type := "Repeating"
  filter_on := false
  filter_window := 0
  filter_count := 10
  unit_idx := 0

/-- Embeds `KeithMeasure.set_num_points` as inherited by `DiffCon`: a value that is
not an integer in `range(1, 65537)` is replaced by the mode's registry
default (21 for differential conductance). -/
def set_num_points (points : ℚ) (m : DiffCon) : DiffCon :=
  let points := if pyInIntRange points 1 65537 then points else DconInfo.points_def
  { m with num_points := points }

/-- Embeds `DiffCon.update_num_points`: recompute `num_points` from
`curr1`/`curr2`/`curr_step` through `calc_num_points` and store it through
`set_num_points`. -/
def update_num_points (m : DiffCon) : DiffCon :=
  m.set_num_points (calc_num_points m.curr1 m.curr2 m.curr_step)

/-- Embeds `DiffCon.set_curr1`: base clamp against `curr1` bounds
`(-105e-3, 105e-3)` with default `-10e-6`, then `update_num_points`. -/
def set_curr1 (c : ℚ) (m : DiffCon) : DiffCon :=
  let c := if ¬((-105e-3 : ℚ) ≤ c ∧ c ≤ 105e-3) then -10e-6 else c
  ({ m with curr1 := c }).update_num_points

/-- Embeds `DiffCon.set_curr2`: base clamp against `curr2` bounds with default
`10e-6`, then `update_num_points`. -/
def set_curr2 (c : ℚ) (m : DiffCon) : DiffCon :=
  let c := if ¬((-105e-3 : ℚ) ≤ c ∧ c ≤ 105e-3) then 10e-6 else c
  ({ m with curr2 := c }).update_num_points

/-- Embeds `DiffCon.set_curr_step`: clamp against `DconInfo` step bounds `(0,
105e-3)` with default `1e-6`, then `update_num_points`.  (The lower bound is
0, so a zero step is accepted.) -/
def set_curr_step (s : ℚ) (m : DiffCon) : DiffCon :=
  let s := if ¬(DconInfo.curr_step_lim.1 ≤ s ∧ s ≤ DconInfo.curr_step_lim.2)
    then DconInfo.curr_step_def else s
  ({ m with curr_step := s }).update_num_points

/-- Embeds `DiffCon.set_curr_delta`: clamp against `(0, 105e-3)` with default
`1e-6`. -/
def set_curr_delta (d : ℚ) (m : DiffCon) : DiffCon :=
  let d := if ¬((0 : ℚ) ≤ d ∧ d ≤ 105e-3) then 1e-6 else d
  { m with curr_delta := d }

/-- Embeds `DiffCon.set_meas_rate`: membership in `range(1, 61)` PLC, default 1. -/
def set_meas_rate (r : ℚ) (m : DiffCon) : DiffCon :=
  let r := if pyInIntRange r 1 61 then r else 1
  { m with meas_rate := r }

/-- Embeds `KeithMeasure.set_meas_delay`: clamp against `(1.0e-3, 9999.999)` with
default `2e-3`. -/
def set_meas_delay (d : ℚ) (m : DiffCon) : DiffCon :=
  let d := if ¬((1e-3 : ℚ) ≤ d ∧ d ≤ 9999.999) then 2e-3 else d
  { m with meas_delay := d }

/-- Embeds `KeithMeasure.set_filter_on`: stored unconditionally. -/
def set_filter_on (b : Bool) (m : DiffCon) : DiffCon :=
  { m with filter_on := b }

/-- Embeds `KeithMeasure.set_filter_window`: clamp against `KeithInfo.fwindow`
`(0.0, 10.0)` with default `0.0`. -/
def set_filter_window (w : ℚ) (m : DiffCon) : DiffCon :=
  let w := if ¬(KeithInfo.fwindow_lim.1 ≤ w ∧ w ≤ KeithInfo.fwindow_lim.2)
    then KeithInfo.fwindow_def else w
  { m with filter_window := w }

/-- Embeds `KeithMeasure.set_filter_count`: membership in `range(2, 301)`, default
10. -/
def set_filter_count (c : ℚ) (m : DiffCon) : DiffCon :=
  let c := if pyInIntRange c 2 301 then c else KeithInfo.fcount_def
  { m with filter_count := c }

/-- Embeds `KeithMeasure.set_filter_idx` as seen by `DiffCon`: the base method is a
no-op (`pass`) and `DiffCon` does not override it, so no requested filter
index changes anything. -/
def set_filter_idx (_ : ℤ) (m : DiffCon) : DiffCon := m

/-- Embeds `KeithMeasure.set_low_meas` as seen by `DiffCon`: base no-op. -/
def set_low_meas (_ : PyNum) (m : DiffCon) : DiffCon := m

/-- Embeds `KeithMeasure.set_unit` restricted to integer inputs: an index outside
the unit dictionary keys `0..4` is replaced by the default 0. -/
def set_unit (u : ℤ) (m : DiffCon) : DiffCon :=
  let u := if 0 ≤ u ∧ u < 5 then u else 0
  { m with unit_idx := u }

end DiffCon

/-- One call to any `DiffCon` setter, for stating invariants over arbitrary
setter-call sequences. -/
inductive DcOp where
  | setCurr1 (c : ℚ)
  | setCurr2 (c : ℚ)
  | setCurrStep (c : ℚ)
  | setCurrDelta (c : ℚ)
  | setNumPoints (p : ℚ)
  | setMeasRate (r : ℚ)
  | setMeasDelay (d : ℚ)
  | setFilterIdx (i : ℤ)
  | setFilterOn (b : Bool)
  | setFilterWindow (w : ℚ)
  | setFilterCount (c : ℚ)
  | setLowMeas (v : PyNum)
  | setUnit (u : ℤ)

/-- Apply one `DiffCon` setter call. -/
def DcOp.apply : DcOp → DiffCon → DiffCon
  | .setCurr1 c, m => m.set_curr1 c
  | .setCurr2 c, m => m.set_curr2 c
  | .setCurrStep c, m => m.set_curr_step c
  | .setCurrDelta c, m => m.set_curr_delta c
  | .setNumPoints p, m => m.set_num_points p
  | .setMeasRate r, m => m.set_meas_rate r
  | .setMeasDelay d, m => m.set_meas_delay d
  | .setFilterIdx i, m => m.set_filter_idx i
  | .setFilterOn b, m => m.set_filter_on b
  | .setFilterWindow w, m => m.set_filter_window w
  | .setFilterCount c, m => m.set_filter_count c
  | .setLowMeas v, m => m.set_low_meas v
  | .setUnit u, m => m.set_unit u

/-- Run a sequence of `DiffCon` setter calls. -/
def DiffCon.run (m : DiffCon) (ops : List DcOp) : DiffCon :=
  ops.foldl (fun s op => DcOp.apply op s) m

/-! ## Pulse-delta model (`keith_meas_types.py`, class `PDelta`) -/

namespace PDelta

/-- Embeds `PDelta.set_low_meas(enable)` (`keith_meas_types.py` lines 240-247):
`info.low_meas = {'lim': (1, 2), 'def': 2}` from `limits.PDeltInfo`; Python
`enable not in (1, 2)` compares by numeric value (`True == 1`,
`False == 0`), so `False` is replaced by the default `2` while `True` is kept
as-is.  The identical method bodies of `PDeltaStair.set_low_meas` and
`PDeltaLog.set_low_meas` (same registry entry, inherited by `SweepInfo`) are
modelled by this same function. -/
def set_low_meas (enable : PyNum) : PyNum :=
  if enable.toQ = 1 ∨ enable.toQ = 2 then enable else .int 2

end PDelta

/-! ## Pulse-delta staircase-sweep model (`keith_meas_types.py`, class
`PDeltaStair`, bounds from `limits.SweepInfo`). -/

/-- Mutable state of a `PDeltaStair` instance. -/
structure PDeltaStair where
  curr1 : ℚ
  curr2 : ℚ
  curr_step : ℚ
  num_points : ℚ
  num_sweeps : ℚ
  pulse_width : ℚ
  meas_delay : ℚ
  cycle_time : ℚ
  low_meas : PyNum
  filter_idx : ℤ
  filter_type : String
  filter_on : Bool
  filter_window : ℚ
  filter_count : ℚ
  unit_idx : ℤ
  deriving DecidableEq, Repr

namespace PDeltaStair

/-- Embeds `PDeltaStair.__init__`: seeded from `SweepInfo` defaults (`curr1 1e-3`,
`curr2 0`, `curr_step 1e-5` inherited from `KeithInfo`, `num_points`
computed directly by `calc_num_points`, sweeps 1, width 110µs, delay 16µs,
cycle time 0.1 s, `low_meas` default 2, filter index 0 with text `"Moving"` —
`SweepInfo` deletes the Repeating entry — filter off, window 0, count 10). -/
def init : PDeltaStair where
  curr1 := 1e-3
  curr2 := 0
  curr_step := 1e-5
  num_points := calc_num_points 1e-3 0 1e-5
  num_sweeps := 1
  pulse_width := 110e-6
  meas_delay := 16e-6
  cycle_time := 0.1
  low_meas := .int 2
  filter_idx := 0
  filter_type := "Moving"
  filter_on := false
  filter_window := 0
  filter_count := 10
  unit_idx := 0

/-- Embeds `set_num_points` for the sweep modes: `SweepInfo` narrows the points
bound to `range(1, 65535)` and resets the default to 11. -/
def set_num_points (points : ℚ) (m : PDeltaStair) : PDeltaStair :=
  let points := if pyInIntRange points 1 65535 then points else KeithInfo.points_def
  { m with num_points := points }

/-- Embeds `PDeltaStair.update_num_points`. -/
def update_num_points (m : PDeltaStair) : PDeltaStair :=
  m.set_num_points (calc_num_points m.curr1 m.curr2 m.curr_step)

/-- Embeds `PDeltaStair.set_curr1`: base clamp (default `1e-3` from `PDeltInfo`),
then `update_num_points`. -/
def set_curr1 (c : ℚ) (m : PDeltaStair) : PDeltaStair :=
  let c := if ¬((-105e-3 : ℚ) ≤ c ∧ c ≤ 105e-3) then 1e-3 else c
  ({ m with curr1 := c }).update_num_points

/-- Embeds `PDeltaStair.set_curr2`: base clamp (default `0`), then
`update_num_points`. -/
def set_curr2 (c : ℚ) (m : PDeltaStair) : PDeltaStair :=
  let c := if ¬((-105e-3 : ℚ) ≤ c ∧ c ≤ 105e-3) then 0 else c
  ({ m with curr2 := c }).update_num_points

/-- Embeds `PDeltaStair.set_curr_step`: clamp against the inherited `curr_step`
bounds `(1e-13, 105e-3)` with default `1e-5`, then `update_num_points`. -/
def set_curr_step (s : ℚ) (m : PDeltaStair) : PDeltaStair :=
  let s := if ¬((1e-13 : ℚ) ≤ s ∧ s ≤ 105e-3) then 1e-5 else s
  ({ m with curr_step := s }).update_num_points

/-- Embeds `PDeltaStair.set_meas_rate`: clamp against `(1e-3, 999999.999)` with
default `0.1`, stored in `cycle_time`. -/
def set_meas_rate (r : ℚ) (m : PDeltaStair) : PDeltaStair :=
  let r := if ¬((1e-3 : ℚ) ≤ r ∧ r ≤ 999999.999) then 0.1 else r
  { m with cycle_time := r }

/-- Embeds `PDeltaStair.set_pulse_width`: clamp against `(50e-6, 12e-3)` with
default `110e-6`. -/
def set_pulse_width (w : ℚ) (m : PDeltaStair) : PDeltaStair :=
  let w := if ¬((50e-6 : ℚ) ≤ w ∧ w ≤ 12e-3) then 110e-6 else w
  { m with pulse_width := w }

/-- Embeds `PDeltaStair.set_num_sweeps`: membership in `range(1, 10000)`, default
1. -/
def set_num_sweeps (s : ℚ) (m : PDeltaStair) : PDeltaStair :=
  let s := if pyInIntRange s 1 10000 then s else 1
  { m with num_sweeps := s }

/-- Embeds `KeithMeasure.set_meas_delay` with the `PDeltInfo` bounds `(16e-6,
11.966e-3)`, default `16e-6`. -/
def set_meas_delay (d : ℚ) (m : PDeltaStair) : PDeltaStair :=
  let d := if ¬((16e-6 : ℚ) ≤ d ∧ d ≤ 11.966e-3) then 16e-6 else d
  { m with meas_delay := d }

/-- Embeds `PDeltaStair.set_low_meas` (same body and registry entry as
`PDelta.set_low_meas`). -/
def set_low_meas (v : PyNum) (m : PDeltaStair) : PDeltaStair :=
  { m with low_meas := PDelta.set_low_meas v }

/-- Embeds `KeithMeasure.set_filter_on`. -/
def set_filter_on (b : Bool) (m : PDeltaStair) : PDeltaStair :=
  { m with filter_on := b }

/-- Embeds `KeithMeasure.set_filter_window` (shared `KeithInfo.fwindow`). -/
def set_filter_window (w : ℚ) (m : PDeltaStair) : PDeltaStair :=
  let w := if ¬(KeithInfo.fwindow_lim.1 ≤ w ∧ w ≤ KeithInfo.fwindow_lim.2)
    then KeithInfo.fwindow_def else w
  { m with filter_window := w }

/-- Embeds `KeithMeasure.set_filter_count` (shared `KeithInfo.fcount`). -/
def set_filter_count (c : ℚ) (m : PDeltaStair) : PDeltaStair :=
  let c := if pyInIntRange c 2 301 then c else KeithInfo.fcount_def
  { m with filter_count := c }

/-- Embeds `KeithMeasure.set_filter_idx` as seen by `PDeltaStair`: base no-op
(`PDeltaStair` does not override it). -/
def set_filter_idx (_ : ℤ) (m : PDeltaStair) : PDeltaStair := m

/-- Embeds `KeithMeasure.set_unit` restricted to integer inputs. -/
def set_unit (u : ℤ) (m : PDeltaStair) : PDeltaStair :=
  let u := if 0 ≤ u ∧ u < 5 then u else 0
  { m with unit_idx := u }

end PDeltaStair

/-- One call to any `PDeltaStair` setter. -/
inductive StairOp where
  | setCurr1 (c : ℚ)
  | setCurr2 (c : ℚ)
  | setCurrStep (c : ℚ)
  | setNumPoints (p : ℚ)
  | setNumSweeps (s : ℚ)
  | setMeasRate (r : ℚ)
  | setMeasDelay (d : ℚ)
  | setPulseWidth (w : ℚ)
  | setLowMeas (v : PyNum)
  | setFilterIdx (i : ℤ)
  | setFilterOn (b : Bool)
  | setFilterWindow (w : ℚ)
  | setFilterCount (c : ℚ)
  | setUnit (u : ℤ)

/-- Apply one `PDeltaStair` setter call. -/
def StairOp.apply : StairOp → PDeltaStair → PDeltaStair
  | .setCurr1 c, m => m.set_curr1 c
  | .setCurr2 c, m => m.set_curr2 c
  | .setCurrStep c, m => m.set_curr_step c
  | .setNumPoints p, m => m.set_num_points p
  | .setNumSweeps s, m => m.set_num_sweeps s
  | .setMeasRate r, m => m.set_meas_rate r
  | .setMeasDelay d, m => m.set_meas_delay d
  | .setPulseWidth w, m => m.set_pulse_width w
  | .setLowMeas v, m => m.set_low_meas v
  | .setFilterIdx i, m => m.set_filter_idx i
  | .setFilterOn b, m => m.set_filter_on b
  | .setFilterWindow w, m => m.set_filter_window w
  | .setFilterCount c, m => m.set_filter_count c
  | .setUnit u, m => m.set_unit u

/-- Run a sequence of `PDeltaStair` setter calls. -/
def PDeltaStair.run (m : PDeltaStair) (ops : List StairOp) : PDeltaStair :=
  ops.foldl (fun s op => StairOp.apply op s) m

/-! ## Pulse-delta logarithmic-sweep model (`keith_meas_types.py`, class
`PDeltaLog`, bounds from `limits.PDeltLogInfo = SweepInfo`). -/

/-- Mutable state of a `PDeltaLog` instance (no `curr_step` field; its
`num_points` is operator-specified, not derived). -/
structure PDeltaLog where
  curr1 : ℚ
  curr2 : ℚ
  num_points : ℚ
  num_sweeps : ℚ
  pulse_width : ℚ
  meas_delay : ℚ
  cycle_time : ℚ
  low_meas : PyNum
  filter_idx : ℤ
  filter_type : String
  filter_on : Bool
  filter_window : ℚ
  filter_count : ℚ
  unit_idx : ℤ
  deriving DecidableEq, Repr

namespace PDeltaLog

/-- Embeds `PDeltaLog.__init__`: seeded from `PDeltLogInfo` (= `SweepInfo`)
defaults; `num_points` is the registry default 11. -/
def init : PDeltaLog where
  curr1 := 1e-3
  curr2 := 0
  num_points := KeithInfo.points_def
  num_sweeps := 1
  pulse_width := 110e-6
  meas_delay := 16e-6
  cycle_time := 0.1
  low_meas := .int 2
  filter_idx := 0
  filter_type := "Moving"
  filter_on := false
  filter_window := 0
  filter_count := 10
  unit_idx := 0

/-- Embeds `KeithMeasure.set_curr1` as inherited (no `update_num_points` for the
log sweep). -/
def set_curr1 (c : ℚ) (m : PDeltaLog) : PDeltaLog :=
  let c := if ¬((-105e-3 : ℚ) ≤ c ∧ c ≤ 105e-3) then 1e-3 else c
  { m with curr1 := c }

/-- Embeds `KeithMeasure.set_curr2` as inherited. -/
def set_curr2 (c : ℚ) (m : PDeltaLog) : PDeltaLog :=
  let c := if ¬((-105e-3 : ℚ) ≤ c ∧ c ≤ 105e-3) then 0 else c
  { m with curr2 := c }

/-- Embeds `KeithMeasure.set_curr_step` as seen by `PDeltaLog`: base no-op. -/
def set_curr_step (_ : ℚ) (m : PDeltaLog) : PDeltaLog := m

/-- Embeds `set_num_points` with the `SweepInfo` bound `range(1, 65535)`. -/
def set_num_points (points : ℚ) (m : PDeltaLog) : PDeltaLog :=
  let points := if pyInIntRange points 1 65535 then points else KeithInfo.points_def
  { m with num_points := points }

/-- Embeds `PDeltaLog.set_meas_rate` into `cycle_time`. -/
def set_meas_rate (r : ℚ) (m : PDeltaLog) : PDeltaLog :=
  let r := if ¬((1e-3 : ℚ) ≤ r ∧ r ≤ 999999.999) then 0.1 else r
  { m with cycle_time := r }

/-- Embeds `PDeltaLog.set_pulse_width`. -/
def set_pulse_width (w : ℚ) (m : PDeltaLog) : PDeltaLog :=
  let w := if ¬((50e-6 : ℚ) ≤ w ∧ w ≤ 12e-3) then 110e-6 else w
  { m with pulse_width := w }

/-- Embeds `PDeltaLog.set_num_sweeps`. -/
def set_num_sweeps (s : ℚ) (m : PDeltaLog) : PDeltaLog :=
  let s := if pyInIntRange s 1 10000 then s else 1
  { m with num_sweeps := s }

/-- Embeds `KeithMeasure.set_meas_delay` with `PDeltInfo` bounds. -/
def set_meas_delay (d : ℚ) (m : PDeltaLog) : PDeltaLog :=
  let d := if ¬((16e-6 : ℚ) ≤ d ∧ d ≤ 11.966e-3) then 16e-6 else d
  { m with meas_delay := d }

/-- Embeds `PDeltaLog.set_low_meas` (same body as `PDelta.set_low_meas`). -/
def set_low_meas (v : PyNum) (m : PDeltaLog) : PDeltaLog :=
  { m with low_meas := PDelta.set_low_meas v }

/-- Embeds `KeithMeasure.set_filter_on`. -/
def set_filter_on (b : Bool) (m : PDeltaLog) : PDeltaLog :=
  { m with filter_on := b }

/-- Embeds `KeithMeasure.set_filter_window`. -/
def set_filter_window (w : ℚ) (m : PDeltaLog) : PDeltaLog :=
  let w := if ¬(KeithInfo.fwindow_lim.1 ≤ w ∧ w ≤ KeithInfo.fwindow_lim.2)
    then KeithInfo.fwindow_def else w
  { m with filter_window := w }

/-- Embeds `KeithMeasure.set_filter_count`. -/
def set_filter_count (c : ℚ) (m : PDeltaLog) : PDeltaLog :=
  let c := if pyInIntRange c 2 301 then c else KeithInfo.fcount_def
  { m with filter_count := c }

/-- Embeds `KeithMeasure.set_filter_idx` as seen by `PDeltaLog`: base no-op. -/
def set_filter_idx (_ : ℤ) (m : PDeltaLog) : PDeltaLog := m

/-- Embeds `KeithMeasure.set_unit` restricted to integer inputs. -/
def set_unit (u : ℤ) (m : PDeltaLog) : PDeltaLog :=
  let u := if 0 ≤ u ∧ u < 5 then u else 0
  { m with unit_idx := u }

end PDeltaLog

/-- One call to any `PDeltaLog` setter. -/
inductive LogOp where
  | setCurr1 (c : ℚ)
  | setCurr2 (c : ℚ)
  | setCurrStep (c : ℚ)
  | setNumPoints (p : ℚ)
  | setNumSweeps (s : ℚ)
  | setMeasRate (r : ℚ)
  | setMeasDelay (d : ℚ)
  | setPulseWidth (w : ℚ)
  | setLowMeas (v : PyNum)
  | setFilterIdx (i : ℤ)
  | setFilterOn (b : Bool)
  | setFilterWindow (w : ℚ)
  | setFilterCount (c : ℚ)
  | setUnit (u : ℤ)

/-- Apply one `PDeltaLog` setter call. -/
def LogOp.apply : LogOp → PDeltaLog → PDeltaLog
  | .setCurr1 c, m => m.set_curr1 c
  | .setCurr2 c, m => m.set_curr2 c
  | .setCurrStep c, m => m.set_curr_step c
  | .setNumPoints p, m => m.set_num_points p
  | .setNumSweeps s, m => m.set_num_sweeps s
  | .setMeasRate r, m => m.set_meas_rate r
  | .setMeasDelay d, m => m.set_meas_delay d
  | .setPulseWidth w, m => m.set_pulse_width w
  | .setLowMeas v, m => m.set_low_meas v
  | .setFilterIdx i, m => m.set_filter_idx i
  | .setFilterOn b, m => m.set_filter_on b
  | .setFilterWindow w, m => m.set_filter_window w
  | .setFilterCount c, m => m.set_filter_count c
  | .setUnit u, m => m.set_unit u

/-- Run a sequence of `PDeltaLog` setter calls. -/
def PDeltaLog.run (m : PDeltaLog) (ops : List LogOp) : PDeltaLog :=
  ops.foldl (fun s op => LogOp.apply op s) m

/-! ## Source/detector stack controller (`src/Keithley2182a_6221/keith.py`,
class `Keith`) -/

namespace Keith

/-- Embeds `Keith.source_range_switch` restricted to the nine index keys `0..8`
(the reverse value-to-index entries are not consulted by the conversion
functions). -/
def source_range_switch (i : Fin 9) : ℚ :=
  if i = 0 then 2e-9 else if i = 1 then 20e-9 else if i = 2 then 200e-9
  else if i = 3 then 2e-6 else if i = 4 then 20e-6 else if i = 5 then 200e-6
  else if i = 6 then 2e-3 else if i = 7 then 20e-3 else 100e-3

/-- Value of `numpy.log10(source_range_switch[i])` for each of the nine
table entries, as an exact rational approximation of the IEEE-double result
(`log10 2 ≈ 0.301029995664`, so e.g. `log10(2e-9) ≈ -8.698970004336`;
`numpy.log10(0.1)` is exactly `-1.0`).  The only use of these values is the
floor-division by 3 in `mult_idx`; every quotient is at least 0.09 away from
an integer, so the floor is insensitive to the approximation error
(below 1e-12). -/
def log10_source_range (i : Fin 9) : ℚ :=
  if i = 0 then -8.698970004336 else if i = 1 then -7.698970004336
  else if i = 2 then -6.698970004336 else if i = 3 then -5.698970004336
  else if i = 4 then -4.698970004336 else if i = 5 then -3.698970004336
  else if i = 6 then -2.698970004336 else if i = 7 then -1.698970004336
  else -1

/-- Embeds `val // 3` on `val = numpy.log10(self.source_range_switch[idx])`, the
multiplier-table key computed by both `curr_conv_mult` and `curr_conv_div`
(`keith.py` lines 458-468). -/
def mult_idx (i : Fin 9) : ℤ :=
  ⌊log10_source_range i / 3⌋

/-- Embeds `Keith.source_range_mult_switch = {-1: 1e-9, 0: 1e-6, 1: 1e-3}`;
lookup with any other key raises `KeyError`, modelled as `none`. -/
def source_range_mult_switch (k : ℤ) : Option ℚ :=
  if k = -1 then some 1e-9 else if k = 0 then some 1e-6
  else if k = 1 then some 1e-3 else none

/-- Embeds `Keith.curr_conv_mult(num)`: multiply by the multiplier selected by
`mult_idx` at the current source-range index (`none` models the `KeyError`
when the key is missing from the table). -/
def curr_conv_mult (i : Fin 9) (num : ℚ) : Option ℚ :=
  (source_range_mult_switch (mult_idx i)).map (fun m => num * m)

/-- Embeds `Keith.curr_conv_div(num)`: divide by the same multiplier. -/
def curr_conv_div (i : Fin 9) (num : ℚ) : Option ℚ :=
  (source_range_mult_switch (mult_idx i)).map (fun m => num / m)

/-- The data-reshaping body of `Keith.get_data` (`keith.py` lines 680-693),
parameterized by the header string and the raw comma-delimited trace reply:
`data_list = data_str.split(',')`;
`data_rows = [data_list[j:j+5] for j in range(len) if not j % 5]`;
`sdata_rows` tab-joins each row; `data_str` newline-joins the rows and
prepends the header; `data_cols = [data_list[j::5] for j in range(5)]`.
(In the source the header comes from `self.get_header_string()`, a call that
raises `AttributeError` — see the C6 analysis — so it is a parameter here.) -/
def get_data (header raw : String) :
    String × List String × List (List String) :=
  let cols := 5
  let data_list := pySplit raw
  let items := data_list.length
  let data_rows := ((List.range items).filter (fun j => j % cols == 0)).map
    (fun j => (data_list.drop j).take cols)
  let sdata_rows := data_rows.map (fun r => String.intercalate "\t" r)
  let data_str := header ++ String.intercalate "\n" sdata_rows
  let data_cols := (List.range cols).map (fun j => takeEvery cols (data_list.drop j))
  (data_str, sdata_rows, data_cols)

end Keith

/-! ## Temperature controller (`src/LakeShore_336/temperature.py`, class
`Temp`, bounds from `limits.TempInfo`). -/

/-- Mutable state of a `Temp` instance (the per-loop fields the setters
touch). -/
structure Temp where
  rad_setpoint : ℚ
  stage_setpoint : ℚ
  rad_ramp : ℚ
  stage_ramp : ℚ
  rad_power : ℚ
  stage_power : ℚ
  deriving DecidableEq, Repr

namespace Temp

/-- The recognized output names: the flattening of
`TempInfo.out['name'] = {1: ('out1', 'rad'), 2: ('out2', 'stage')}`.
(The source builds this as `self.outnames`, a generator over
`info.out.name.values()` — an attribute-style access of the dict entry
`'name'` — and membership tests against it; this list is the collection of
names it denotes.) -/
def outnames : List String := ["out1", "rad", "out2", "stage"]

/-- The names of output 1 (`TempInfo.out['name'][1] = ('out1', 'rad')`),
tested by each setter to choose the rad-shield fields over the stage
fields. -/
def out1_names : List String := ["out1", "rad"]

/-- Embeds `Temp.set_setpoint(temp, output)`: an unrecognized `output` prints a
diagnostic and returns `None` before anything is stored; otherwise the value
is clamped against `TempInfo.setpt` `(3, 325)` (default `4.0`), stored into
the rad or stage setpoint, and returned. -/
def set_setpoint (temp : ℚ) (output : String) (t : Temp) : Option ℚ × Temp :=
  if output ∉ outnames then (none, t)
  else
    let temp := if ¬((3 : ℚ) ≤ temp ∧ temp ≤ 325) then 4 else temp
    if output ∈ out1_names then (some temp, { t with rad_setpoint := temp })
    else (some temp, { t with stage_setpoint := temp })

/-- Embeds `Temp.set_ramp(rate, output)`: unrecognized `output` → `None`, no store;
otherwise clamp against `TempInfo.rate` `(0.1, 100.0)` or the sentinel `0`
(default `1.0`) and store into the rad or stage ramp. -/
def set_ramp (rate : ℚ) (output : String) (t : Temp) : Option ℚ × Temp :=
  if output ∉ outnames then (none, t)
  else
    let rate := if ¬(((1 : ℚ)/10 ≤ rate ∧ rate ≤ 100) ∨ rate = 0) then 1 else rate
    if output ∈ out1_names then (some rate, { t with rad_ramp := rate })
    else (some rate, { t with stage_ramp := rate })

/-- Embeds `Temp.set_power(power, output)`: unrecognized `output` → `None`, no
store; otherwise membership in `range(0, 4)` (default `0`) and store into the
rad or stage power. -/
def set_power (power : ℚ) (output : String) (t : Temp) : Option ℚ × Temp :=
  if output ∉ outnames then (none, t)
  else
    let power := if pyInIntRange power 0 4 then power else 0
    if output ∈ out1_names then (some power, { t with rad_power := power })
    else (some power, { t with stage_power := power })

end Temp

/-! ## Configuration round trip (`src/main.py`, class `ProbeGui`)

The load path replays configuration-file values through the controller
setters; the save path copies the controller state back into the parameter
tree.  The source reaches the setters through several stale cross-revision
names (`Keith.meas_type` reads the nonexistent `meas_type_switch`;
`load_mag_config` calls the nonexistent `set_mag_segments` for
`set_mag_ramp_segments` and `mag.set_setpoints` for `set_setpoints_list`;
`get_keith_config` keys the differential-conductance sub-dict `'diffcon'`
while the load path reads `'diffCon'`), all resolved here to the definitions
they evidently denote; the claim-refuting behavior below (clamping of
out-of-bounds values) is independent of those resolutions. -/

/-- The `diffCon` sub-mapping of the `Keithley` configuration section:
exactly the fields that appear in both `load_keith_config` (lines 1757-1765)
and `get_keith_config` (lines 1844-1852). -/
structure DiffConConfig where
  startCurrent : ℚ
  stopCurrent : ℚ
  stepCurrent : ℚ
  deltaCurrent : ℚ
  measRate : ℚ
  measDelay : ℚ
  filterOn : Bool
  filterWindow : ℚ
  filterCount : ℚ
  deriving DecidableEq, Repr

/-- Embeds `Keith.set_filter_window(window, meas_idx)` (`keith.py` lines 557-569):
the controller clamps against the same `(0.0, 10.0)` window bound (through
the stale flat names `lims.filt_window`/`lims.filt_window_def`, resolved to
`KeithInfo.fwindow`) before handing the value to the model's
`set_filter_window`. -/
def Keith.set_filter_window (w : ℚ) (m : DiffCon) : DiffCon :=
  let w := if ¬(KeithInfo.fwindow_lim.1 ≤ w ∧ w ≤ KeithInfo.fwindow_lim.2)
    then KeithInfo.fwindow_def else w
  m.set_filter_window w

/-- Embeds `Keith.set_filter_count(count, meas_idx)` (`keith.py` lines 571-583):
the controller first applies a numeric clamp `2 ≤ count ≤ 300` (the stale
flat names `lims.filt_count`/`lims.filt_count_def` resolved to
`KeithInfo.fcount`), then the model's `set_filter_count` applies the
`range(2, 301)` membership test. -/
def Keith.set_filter_count (c : ℚ) (m : DiffCon) : DiffCon :=
  let c := if ¬((2 : ℚ) ≤ c ∧ c ≤ 300) then KeithInfo.fcount_def else c
  m.set_filter_count c

/-- The `diffCon` leg of `load_keith_config` (`main.py` lines 1755-1765):
replay each field through the differential-conductance model's setters, in
source order. -/
def load_keith_diffcon (c : DiffConConfig) (m : DiffCon) : DiffCon :=
  let m := m.set_curr1 c.startCurrent
  let m := m.set_curr2 c.stopCurrent
  let m := m.set_curr_step c.stepCurrent
  let m := m.set_curr_delta c.deltaCurrent
  let m := m.set_meas_rate c.measRate
  let m := m.set_meas_delay c.measDelay
  let m := m.set_filter_on c.filterOn
  let m := Keith.set_filter_window c.filterWindow m
  Keith.set_filter_count c.filterCount m

/-- The `diffCon` leg of `get_keith_config` (`main.py` lines 1844-1852):
copy the model state back into the sub-mapping. -/
def get_keith_diffcon (m : DiffCon) : DiffConConfig where
  startCurrent := m.curr1
  stopCurrent := m.curr2
  stepCurrent := m.curr_step
  deltaCurrent := m.curr_delta
  measRate := m.meas_rate
  measDelay := m.meas_delay
  filterOn := m.filter_on
  filterWindow := m.filter_window
  filterCount := m.filter_count

/-- The `Magnet` configuration section as read by `load_mag_config`
(`main.py` lines 1937-1949).  `fieldUnit` is taken as a unit index
(`Mag.set_field_unit` accepts `0/1/2` directly; a string spelling would hit
the nonexistent `field_unit_switch` table).  `timeUnit` and `rampRates` are
omitted: the load path reads the key `'time_unit'` while the save path
writes `'timeUnit'`, and `Mag.set_ramps_list` raises on every call
(it subscripts the method `self.time_unit` and uses a capitalized key into
the lowercase-keyed rate table), so neither field appears in both working
paths. -/
structure MagConfig where
  address : ℚ
  target : ℚ
  fieldUnit : Fin 3
  segs : ℚ
  rampSetpoints : List ℚ
  quenchDetect : Bool
  voltLimit : ℚ
  currLimit : ℚ
  deriving DecidableEq, Repr

/-- The `Magnet` fields written by `get_mag_config` (`main.py` lines
1957-1966) that also appear in the load path: everything in `MagConfig`
except `fieldUnit`, whose save accessor `mag.fieldUnit('Full')` does not
exist on `Mag` (and whose working spelling `field_unit` subscripts the
missing `field_unit_switch` table). -/
structure MagSaved where
  address : ℚ
  target : ℚ
  segs : ℚ
  rampSetpoints : List ℚ
  quenchDetect : Bool
  voltLimit : ℚ
  currLimit : ℚ
  deriving DecidableEq, Repr

/-- The fields of a `MagConfig` that the save path reproduces. -/
def MagConfig.toSaved (c : MagConfig) : MagSaved where
  address := c.address
  target := c.target
  segs := c.segs
  rampSetpoints := c.rampSetpoints
  quenchDetect := c.quenchDetect
  voltLimit := c.voltLimit
  currLimit := c.currLimit

/-- Controller state of `Mag` touched by the configuration round trip.
(The source initializes `quench_detect` and the list text forms to `None`;
the load path always overwrites `quench_detect` before the save path reads
it, so it is seeded `false` here.) -/
structure MagState where
  address : ℚ
  field_unit_idx : Fin 3
  target : ℚ
  ramp_segments : ℚ
  setpoints_list : List ℚ
  quench_detect : Bool
  volt_limit : ℚ
  curr_limit : ℚ
  deriving DecidableEq, Repr

/-- Embeds `Mag.__init__`: address default 2, field unit default tesla (index 1),
target `field['def'] = 0`, one ramp segment, empty setpoints, voltage limit
default 2, current limit default 26.3. -/
def MagState.init : MagState where
  address := 2
  field_unit_idx := 1
  target := 0
  ramp_segments := 1
  setpoints_list := []
  quench_detect := false
  volt_limit := MagInfo.volt_def
  curr_limit := MagInfo.curr_def

/-- Embeds `load_mag_config(params)` (`main.py` lines 1937-1949) over the resolved
setters, in source order: address, target (clamped at the *current* field
unit, i.e. the initial tesla index, since the unit is loaded after the
target), field unit, segments, setpoints (`Mag.set_setpoints_list`, which
can raise), quench detect, voltage limit, current limit. -/
def load_mag_config (c : MagConfig) (st : MagState) : Except PyErr MagState :=
  let st := { st with address := Mag.set_address c.address }
  let st := { st with target := Mag.set_target st.field_unit_idx c.target }
  let st := { st with field_unit_idx := c.fieldUnit }
  let st := { st with ramp_segments := Mag.set_ramp_segments c.segs }
  match Mag.set_setpoints_list st.field_unit_idx c.rampSetpoints with
  | .error e => .error e
  | .ok setpts =>
      let st := { st with setpoints_list := setpts }
      let st := { st with quench_detect := c.quenchDetect }
      let st := { st with volt_limit := Mag.set_volt_limit c.voltLimit }
      .ok { st with curr_limit := Mag.set_curr_limit c.currLimit }

/-- Embeds `get_mag_config()` (`main.py` lines 1957-1966) restricted to the fields
whose save accessors exist: copy controller state into the `Magnet`
section. -/
def get_mag_config (st : MagState) : MagSaved where
  address := st.address
  target := st.target
  segs := st.ramp_segments
  rampSetpoints := st.setpoints_list
  quenchDetect := st.quench_detect
  voltLimit := st.volt_limit
  currLimit := st.curr_limit

/-! ## Helper lemmas -/

theorem pyInIntRange_iff {q : ℚ} {lo hi : ℤ} :
    pyInIntRange q lo hi = true ↔ ∃ n : ℤ, q = (n : ℚ) ∧ lo ≤ n ∧ n < hi := by
  unfold pyInIntRange
  simp only [Bool.and_eq_true, beq_iff_eq, decide_eq_true_eq]
  constructor
  · rintro ⟨hden, hlo, hhi⟩
    exact ⟨q.num, ((Rat.den_eq_one_iff q).mp hden).symm, hlo, hhi⟩
  · rintro ⟨n, rfl, hlo, hhi⟩
    refine ⟨Rat.den_intCast n, ?_, ?_⟩ <;> rw [Rat.num_intCast] <;> assumption

theorem sorted_head_le {l : List ℚ} (hs : l.Sorted (· ≤ ·)) {a x : ℚ}
    (ha : l.head? = some a) (hx : x ∈ l) : a ≤ x := by
  cases l with
  | nil => cases hx
  | cons c t =>
    simp only [List.head?_cons, Option.some.injEq] at ha
    subst ha
    rcases List.mem_cons.mp hx with h | h
    · exact le_of_eq h.symm
    · exact List.rel_of_sorted_cons hs x h

theorem sorted_le_getLast {l : List ℚ} (hs : l.Sorted (· ≤ ·)) {b x : ℚ}
    (hb : l.getLast? = some b) (hx : x ∈ l) : x ≤ b := by
  induction l with
  | nil => cases hx
  | cons c t ih =>
    cases t with
    | nil =>
      simp only [List.getLast?_singleton, Option.some.injEq] at hb
      simp only [List.mem_singleton] at hx
      subst hb; subst hx
      exact le_refl x
    | cons d t' =>
      rw [List.getLast?_cons_cons] at hb
      have hbmem : b ∈ d :: t' := List.mem_of_mem_getLast? (Option.mem_def.mpr hb)
      rcases List.mem_cons.mp hx with h | h
      · subst h
        exact List.rel_of_sorted_cons hs b hbmem
      · exact ih hs.of_cons hb h

theorem field_lim_nonneg (fidx : Fin 3) : 0 ≤ MagInfo.field_lim fidx := by
  unfold MagInfo.field_lim
  split_ifs <;> norm_num

theorem pySort_sorted (l : List ℚ) : (pySort l).Sorted (· ≤ ·) :=
  List.sorted_insertionSort _ l

theorem pySort_perm (l : List ℚ) : (pySort l).Perm l :=
  List.perm_insertionSort _ l

theorem pySort_length (l : List ℚ) : (pySort l).length = l.length :=
  List.length_insertionSort _ l

theorem set_setpoints_list_crash (fidx : Fin 3) (l : List ℚ)
    (h : l.length = 0 ∨ 10 < l.length) :
    Mag.set_setpoints_list fidx l = .error .indexError := by
  have hcond : ¬(1 ≤ (pySort l).length ∧ (pySort l).length ≤ 10) := by
    rw [pySort_length]; omega
  simp only [pySort] at hcond
  simp only [Mag.set_setpoints_list, pySort]
  rw [if_pos hcond]
  rfl

theorem set_setpoints_list_reject (fidx : Fin 3) (l : List ℚ)
    (h1 : 1 ≤ l.length) (h2 : l.length ≤ 10)
    (hx : ∃ x ∈ l, MagInfo.field_lim fidx < |x|) :
    Mag.set_setpoints_list fidx l = .ok [] := by
  have hcond : ¬¬(1 ≤ (pySort l).length ∧ (pySort l).length ≤ 10) := by
    rw [pySort_length]; omega
  have hne : pySort l ≠ [] := by
    intro hnil
    have hl := pySort_length l
    rw [hnil] at hl
    simp only [List.length_nil] at hl
    omega
  obtain ⟨a, t, hat⟩ := List.exists_cons_of_ne_nil hne
  have hhead : (pySort l).head? = some a := by rw [hat]; rfl
  have hlast := List.getLast?_eq_getLast (pySort l) hne
  obtain ⟨x, hxl, hxgt⟩ := hx
  have hxs : x ∈ pySort l := (pySort_perm l).mem_iff.mpr hxl
  have hax : a ≤ x := sorted_head_le (pySort_sorted l) hhead hxs
  have hxb : x ≤ (pySort l).getLast hne :=
    sorted_le_getLast (pySort_sorted l) hlast hxs
  have hbound := field_lim_nonneg fidx
  have habs : |a| > MagInfo.field_lim fidx ∨
      |(pySort l).getLast hne| > MagInfo.field_lim fidx := by
    rcases le_or_lt 0 x with hx0 | hx0
    · right
      have hgx : MagInfo.field_lim fidx < x := by rwa [abs_of_nonneg hx0] at hxgt
      have hlast0 : 0 ≤ (pySort l).getLast hne := le_trans hx0 hxb
      rw [abs_of_nonneg hlast0]
      linarith
    · left
      have hgx : MagInfo.field_lim fidx < -x := by rwa [abs_of_neg hx0] at hxgt
      have ha0 : a < 0 := lt_of_le_of_lt hax hx0
      rw [abs_of_neg ha0]
      linarith
  simp only [Mag.set_setpoints_list, pySort] at *
  rw [if_neg hcond, hhead, hlast]
  exact if_pos habs

theorem set_setpoints_list_ok (fidx : Fin 3) (l : List ℚ)
    (h1 : 1 ≤ l.length) (h2 : l.length ≤ 10)
    (hall : ∀ x ∈ l, |x| ≤ MagInfo.field_lim fidx) :
    Mag.set_setpoints_list fidx l = .ok (pySort l) := by
  have hcond : ¬¬(1 ≤ (pySort l).length ∧ (pySort l).length ≤ 10) := by
    rw [pySort_length]; omega
  have hne : pySort l ≠ [] := by
    intro hnil
    have hl := pySort_length l
    rw [hnil] at hl
    simp only [List.length_nil] at hl
    omega
  obtain ⟨a, t, hat⟩ := List.exists_cons_of_ne_nil hne
  have hhead : (pySort l).head? = some a := by rw [hat]; rfl
  have hlast := List.getLast?_eq_getLast (pySort l) hne
  have hamem : a ∈ l := (pySort_perm l).mem_iff.mp (by rw [hat]; exact List.mem_cons_self a t)
  have hbmem : (pySort l).getLast hne ∈ l :=
    (pySort_perm l).mem_iff.mp (List.getLast_mem hne)
  have habs : ¬(|a| > MagInfo.field_lim fidx ∨
      |(pySort l).getLast hne| > MagInfo.field_lim fidx) := by
    push_neg
    exact ⟨hall a hamem, hall _ hbmem⟩
  simp only [Mag.set_setpoints_list, pySort] at *
  rw [if_neg hcond, hhead, hlast]
  exact if_neg habs

theorem DcOp_apply_filter_type (op : DcOp) (m : DiffCon) :
    (DcOp.apply op m).filter_type = m.filter_type := by
  cases op <;>
    simp [DcOp.apply, DiffCon.set_curr1, DiffCon.set_curr2, DiffCon.set_curr_step,
      DiffCon.set_curr_delta, DiffCon.set_num_points, DiffCon.set_meas_rate,
      DiffCon.set_meas_delay, DiffCon.set_filter_idx, DiffCon.set_filter_on,
      DiffCon.set_filter_window, DiffCon.set_filter_count, DiffCon.set_low_meas,
      DiffCon.set_unit, DiffCon.update_num_points]

theorem DiffCon_run_filter_type (m : DiffCon) (ops : List DcOp) :
    (m.run ops).filter_type = m.filter_type := by
  induction ops generalizing m with
  | nil => rfl
  | cons op t ih =>
    show ((DcOp.apply op m).run t).filter_type = m.filter_type
    rw [ih (DcOp.apply op m), DcOp_apply_filter_type]

theorem StairOp_apply_filter_type (op : StairOp) (m : PDeltaStair) :
    (StairOp.apply op m).filter_type = m.filter_type := by
  cases op <;>
    simp [StairOp.apply, PDeltaStair.set_curr1, PDeltaStair.set_curr2,
      PDeltaStair.set_curr_step, PDeltaStair.set_num_points,
      PDeltaStair.set_num_sweeps, PDeltaStair.set_meas_rate,
      PDeltaStair.set_meas_delay, PDeltaStair.set_pulse_width,
      PDeltaStair.set_low_meas, PDeltaStair.set_filter_idx,
      PDeltaStair.set_filter_on, PDeltaStair.set_filter_window,
      PDeltaStair.set_filter_count, PDeltaStair.set_unit,
      PDeltaStair.update_num_points]

theorem PDeltaStair_run_filter_type (m : PDeltaStair) (ops : List StairOp) :
    (m.run ops).filter_type = m.filter_type := by
  induction ops generalizing m with
  | nil => rfl
  | cons op t ih =>
    show ((StairOp.apply op m).run t).filter_type = m.filter_type
    rw [ih (StairOp.apply op m), StairOp_apply_filter_type]

theorem LogOp_apply_filter_type (op : LogOp) (m : PDeltaLog) :
    (LogOp.apply op m).filter_type = m.filter_type := by
  cases op <;>
    simp [LogOp.apply, PDeltaLog.set_curr1, PDeltaLog.set_curr2,
      PDeltaLog.set_curr_step, PDeltaLog.set_num_points,
      PDeltaLog.set_num_sweeps, PDeltaLog.set_meas_rate,
      PDeltaLog.set_meas_delay, PDeltaLog.set_pulse_width,
      PDeltaLog.set_low_meas, PDeltaLog.set_filter_idx,
      PDeltaLog.set_filter_on, PDeltaLog.set_filter_window,
      PDeltaLog.set_filter_count, PDeltaLog.set_unit]

theorem PDeltaLog_run_filter_type (m : PDeltaLog) (ops : List LogOp) :
    (m.run ops).filter_type = m.filter_type := by
  induction ops generalizing m with
  | nil => rfl
  | cons op t ih =>
    show ((LogOp.apply op m).run t).filter_type = m.filter_type
    rw [ih (LogOp.apply op m), LogOp_apply_filter_type]

/-! ## Claim theorems -/

/-- C1, counterexample: the claim predicts that `set_curr_limit(-5)` stores
and returns `39.37`; on the code it stores and returns `26.3`, the
current-limit default of `MagInfo.curr` in `src/limits.py` (the value
`39.37` appears nowhere in `src/`). -/
theorem c1_counterexample :
    Mag.set_curr_limit (-5) = 26.3 ∧ (26.3 : ℚ) ≠ 39.37 := by
  constructor
  · norm_num [Mag.set_curr_limit, MagInfo.curr_lim, MagInfo.curr_def]
  · norm_num

/-- C1 (amended): `Mag.set_curr_limit` replaces any input outside the
registry bound `[0, 26.3]` by the registry default `26.3` — in particular
`set_curr_limit(-5)` stores and returns `26.3`, not `39.37` — and keeps any
in-bound input unchanged; the stored and returned value coincide by
construction. -/
theorem c1_set_curr_limit_defaults :
    (∀ limit : ℚ, limit < 0 ∨ 26.3 < limit → Mag.set_curr_limit limit = 26.3) ∧
    (∀ limit : ℚ, 0 ≤ limit → limit ≤ 26.3 → Mag.set_curr_limit limit = limit) := by
  constructor
  · intro limit h
    unfold Mag.set_curr_limit
    refine if_pos ?_
    rcases h with h | h
    · exact fun hcon => absurd hcon.1 (not_le.mpr h)
    · exact fun hcon => absurd hcon.2 (not_le.mpr h)
  · intro limit h0 h1
    unfold Mag.set_curr_limit
    exact if_neg (not_not_intro ⟨h0, h1⟩)

/-- C1, witness: the amended theorem applied at `-5` (out of bounds) and at
`1` (in bounds). -/
theorem c1_witness :
    Mag.set_curr_limit (-5) = 26.3 ∧ Mag.set_curr_limit 1 = 1 :=
  ⟨c1_set_curr_limit_defaults.1 (-5) (Or.inl (by norm_num)),
   c1_set_curr_limit_defaults.2 1 (by norm_num) (by norm_num)⟩

/-- C2, counterexample: the claim predicts
`calc_num_points(start, stop, step) = floor(|stop - start| / step) + 1` for
every nonzero step; at `start = 5/2`, `stop = 0`, `step = 1` the code
computes `abs(floor(-5/2)) + 1 = 4` while the claimed formula gives
`floor(5/2) + 1 = 3`. -/
theorem c2_counterexample :
    calc_num_points (5/2) 0 1 = 4 ∧
    ((⌊|(0 : ℚ) - 5/2| / 1⌋ : ℤ) : ℚ) + 1 = 3 := by
  constructor
  · norm_num [calc_num_points]
  · have habs : |(0 : ℚ) - 5/2| = 5/2 := by
      rw [abs_of_nonpos] <;> norm_num
    rw [habs]
    norm_num

/-- C2 (amended): `calc_num_points` returns
`abs(floor((stop - start) / step)) + 1`, which agrees with the claimed
`floor(|stop - start| / step) + 1` whenever `step > 0` and `start ≤ stop`
(in particular on every ascending sweep) but not in general; a zero step
returns 1 instead of raising.  On the differential-conductance model,
replaying `curr1 = -10µA`, `curr2 = 10µA`, `curr_step = 1µA` through the
setters yields `num_points = 21`, and then setting `curr_step = 0` yields
`num_points = 1`. -/
theorem c2_calc_num_points_spec :
    (∀ start stop step : ℚ, 0 < step → start ≤ stop →
        calc_num_points start stop step = ((⌊|stop - start| / step⌋ : ℤ) : ℚ) + 1) ∧
    (∀ start stop : ℚ, calc_num_points start stop 0 = 1) ∧
    (((DiffCon.init.set_curr1 (-10e-6)).set_curr2 10e-6).set_curr_step 1e-6).num_points
      = 21 ∧
    ((((DiffCon.init.set_curr1 (-10e-6)).set_curr2 10e-6).set_curr_step 1e-6).set_curr_step 0).num_points
      = 1 := by
  refine ⟨?_, ?_, ?_, ?_⟩
  · intro start stop step hstep hle
    rw [calc_num_points, if_neg (ne_of_gt hstep)]
    have hq : (0 : ℚ) ≤ (stop - start) / step :=
      div_nonneg (by linarith) hstep.le
    rw [abs_of_nonneg (Int.floor_nonneg.mpr hq),
      abs_of_nonneg (by linarith : (0 : ℚ) ≤ stop - start)]
  · intro start stop
    rw [calc_num_points, if_pos rfl]
  · norm_num [DiffCon.init, DiffCon.set_curr1, DiffCon.set_curr2,
      DiffCon.set_curr_step, DiffCon.update_num_points, DiffCon.set_num_points,
      calc_num_points, pyInIntRange, DconInfo.curr_step_lim,
      DconInfo.curr_step_def, DconInfo.points_def]
  · norm_num [DiffCon.init, DiffCon.set_curr1, DiffCon.set_curr2,
      DiffCon.set_curr_step, DiffCon.update_num_points, DiffCon.set_num_points,
      calc_num_points, pyInIntRange, DconInfo.curr_step_lim,
      DconInfo.curr_step_def, DconInfo.points_def]

/-- C2, witness: the first conjunct of the amended theorem applied at the
concrete ascending sweep `start = 0`, `stop = 5`, `step = 2`. -/
theorem c2_witness :
    calc_num_points 0 5 2 = ((⌊|(5 : ℚ) - 0| / 2⌋ : ℤ) : ℚ) + 1 :=
  c2_calc_num_points_spec.1 0 5 2 (by norm_num) (by norm_num)

/-- C4, counterexample: the claim predicts that every list whose length is
outside the 1–10 segment bound is rejected with the stored setpoints left
empty; on the code, an eleven-element list (here eleven zeros, under the
tesla unit) is emptied by the length check and the subsequent
`setpts[0]` indexing raises `IndexError`, so nothing is stored. -/
theorem c4_counterexample :
    Mag.set_setpoints_list 1 [0, 0, 0, 0, 0, 0, 0, 0, 0, 0, 0] =
      .error .indexError ∧
    Mag.set_setpoints_list 1 [0, 0, 0, 0, 0, 0, 0, 0, 0, 0, 0] ≠
      .ok [] := by
  have h : Mag.set_setpoints_list 1 [0, 0, 0, 0, 0, 0, 0, 0, 0, 0, 0] =
      .error .indexError := by
    apply set_setpoints_list_crash
    right
    norm_num
  exact ⟨h, by rw [h]; exact fun hc => Except.noConfusion hc⟩

/-- C4 (amended): for a list whose length is in 1..10, `set_setpoints_list`
stores and returns the empty list when some element's absolute value exceeds
the active field unit's bound (e.g. under tesla, bound 3, the list `[10]`),
and otherwise stores the ascending sort of the input; but for a list whose
length is outside 1..10 it raises `IndexError` (after emptying its local
copy), leaving the stored setpoints unchanged, rather than storing the empty
list. -/
theorem c4_set_setpoints_spec :
    (∀ (fidx : Fin 3) (l : List ℚ), l.length = 0 ∨ 10 < l.length →
        Mag.set_setpoints_list fidx l = .error .indexError) ∧
    (∀ (fidx : Fin 3) (l : List ℚ), 1 ≤ l.length → l.length ≤ 10 →
        (∃ x ∈ l, MagInfo.field_lim fidx < |x|) →
        Mag.set_setpoints_list fidx l = .ok []) ∧
    (∀ (fidx : Fin 3) (l : List ℚ), 1 ≤ l.length → l.length ≤ 10 →
        (∀ x ∈ l, |x| ≤ MagInfo.field_lim fidx) →
        ∃ s, Mag.set_setpoints_list fidx l = .ok s ∧ s.Perm l ∧
          s.Sorted (· ≤ ·)) := by
  refine ⟨set_setpoints_list_crash, set_setpoints_list_reject, ?_⟩
  intro fidx l h1 h2 hall
  exact ⟨pySort l, set_setpoints_list_ok fidx l h1 h2 hall,
    pySort_perm l, pySort_sorted l⟩

/-- C4, witness: the amended theorem applied at the tesla unit (bound 3) to
the singleton `[10]` (rejected, stored empty) and at the crashing length-0
input. -/
theorem c4_witness :
    Mag.set_setpoints_list 1 [10] = .ok [] ∧
    Mag.set_setpoints_list 1 [] = .error .indexError :=
  ⟨c4_set_setpoints_spec.2.1 1 [10] (by norm_num) (by norm_num)
      ⟨10, List.mem_singleton_self 10, by norm_num [MagInfo.field_lim]⟩,
   c4_set_setpoints_spec.1 1 [] (Or.inl rfl)⟩

/-- C7: on every sequence of setter calls on the measurement-type models,
the shared filter-window setter keeps an in-bound value and replaces an
out-of-bound one by the default 0, the shared filter-count setter keeps an
integer in [2, 300] and replaces any other input by the default 10, and the
`filter_type` of the differential-conductance model stays `"Repeating"`
while that of both sweep models stays `"Moving"`, whatever filter index any
`set_filter_idx` call requests (those calls are inherited no-ops on these
three models). -/
theorem c7_filter_invariants :
    (∀ (w : ℚ) (m : DiffCon), 0 ≤ w → w ≤ 10 →
        (m.set_filter_window w).filter_window = w) ∧
    (∀ (w : ℚ) (m : DiffCon), w < 0 ∨ 10 < w →
        (m.set_filter_window w).filter_window = 0) ∧
    (∀ (c : ℚ) (m : DiffCon), pyInIntRange c 2 301 = true →
        (m.set_filter_count c).filter_count = c) ∧
    (∀ (c : ℚ) (m : DiffCon), pyInIntRange c 2 301 = false →
        (m.set_filter_count c).filter_count = 10) ∧
    (∀ ops : List DcOp, (DiffCon.init.run ops).filter_type = "Repeating") ∧
    (∀ ops : List StairOp, (PDeltaStair.init.run ops).filter_type = "Moving") ∧
    (∀ ops : List LogOp, (PDeltaLog.init.run ops).filter_type = "Moving") := by
  refine ⟨?_, ?_, ?_, ?_, ?_, ?_, ?_⟩
  · intro w m h0 h1
    simp [DiffCon.set_filter_window, KeithInfo.fwindow_lim, h0, h1]
  · intro w m h
    have hc : ¬((0 : ℚ) ≤ w ∧ w ≤ 10) := by
      rcases h with h | h
      · exact fun hcon => absurd hcon.1 (not_le.mpr h)
      · exact fun hcon => absurd hcon.2 (not_le.mpr h)
    simp [DiffCon.set_filter_window, KeithInfo.fwindow_lim,
      KeithInfo.fwindow_def, hc]
  · intro c m h
    simp [DiffCon.set_filter_count, h]
  · intro c m h
    simp [DiffCon.set_filter_count, KeithInfo.fcount_def, h]
  · intro ops
    rw [DiffCon_run_filter_type]
    rfl
  · intro ops
    rw [PDeltaStair_run_filter_type]
    rfl
  · intro ops
    rw [PDeltaLog_run_filter_type]
    rfl

/-- C7, witness: the clamp conjuncts of the invariant theorem applied at the
in-bound window 5, the out-of-bound window 11, the in-bound count 20 and the
out-of-bound count 301, all on the differential-conductance model's initial
state. -/
theorem c7_witness :
    (DiffCon.init.set_filter_window 5).filter_window = 5 ∧
    (DiffCon.init.set_filter_window 11).filter_window = 0 ∧
    (DiffCon.init.set_filter_count 20).filter_count = 20 ∧
    (DiffCon.init.set_filter_count 301).filter_count = 10 :=
  ⟨c7_filter_invariants.1 5 DiffCon.init (by norm_num) (by norm_num),
   c7_filter_invariants.2.1 11 DiffCon.init (Or.inr (by norm_num)),
   c7_filter_invariants.2.2.1 20 DiffCon.init (by
     rw [pyInIntRange_iff]
     exact ⟨20, by norm_num, by norm_num, by norm_num⟩),
   c7_filter_invariants.2.2.2.1 301 DiffCon.init (by
     rw [← Bool.not_eq_true, pyInIntRange_iff]
     rintro ⟨n, hn, h2, h3⟩
     have : n = 301 := by exact_mod_cast hn.symm
     omega)⟩

/-- C9: `PDelta.set_low_meas(False)` does not disable the second low
measurement: `False` is not numerically in the allowed set `(1, 2)`, so it
is replaced by the registry default 2, which is truthy; `set_low_meas(True)`
stores `True` itself; and every stored value of this setter is truthy, so
`low_meas` can never be made falsy through it.  The identical setters of the
two sweep subclasses are the same function. -/
theorem c9_low_meas :
    PDelta.set_low_meas (.bool false) = .int 2 ∧
    PDelta.set_low_meas (.bool true) = .bool true ∧
    ∀ v : PyNum, (PDelta.set_low_meas v).truthy = true := by
  refine ⟨?_, ?_, ?_⟩
  · simp [PDelta.set_low_meas, PyNum.toQ]
  · simp [PDelta.set_low_meas, PyNum.toQ]
  · intro v
    unfold PDelta.set_low_meas
    split_ifs with h
    · rcases h with h | h <;> simp [PyNum.truthy, h]
    · simp [PyNum.truthy, PyNum.toQ]

/-- C10: each temperature-controller setter, given an output name outside
the recognized set, returns an absent result and leaves every stored field
unchanged (the whole state is returned as-is, so rejection is atomic). -/
theorem c10_unknown_output_frame :
    ∀ output : String, output ∉ Temp.outnames →
      ∀ (v : ℚ) (t : Temp),
        Temp.set_setpoint v output t = (none, t) ∧
        Temp.set_ramp v output t = (none, t) ∧
        Temp.set_power v output t = (none, t) := by
  intro output h v t
  refine ⟨?_, ?_, ?_⟩ <;>
    simp [Temp.set_setpoint, Temp.set_ramp, Temp.set_power, h]

/-- C3, counterexample: the claim predicts that a load followed by an
immediate re-serialization reproduces every shared field; a configuration
whose `diffCon.startCurrent` is 1 A (outside the ±105 mA bound) is clamped
to the registry default `-10µA` on load, so the re-serialized value differs
from the loaded one. -/
theorem c3_counterexample :
    (get_keith_diffcon (load_keith_diffcon
        ⟨1, 10e-6, 1e-6, 1e-6, 1, 2e-3, false, 0, 10⟩ DiffCon.init)).startCurrent
      = -10e-6 ∧
    ((⟨1, 10e-6, 1e-6, 1e-6, 1, 2e-3, false, 0, 10⟩ : DiffConConfig)).startCurrent
      = 1 ∧
    (-10e-6 : ℚ) ≠ 1 := by
  refine ⟨?_, rfl, by norm_num⟩
  norm_num [load_keith_diffcon, get_keith_diffcon, DiffCon.set_curr1,
    DiffCon.set_curr2, DiffCon.set_curr_step, DiffCon.set_curr_delta,
    DiffCon.set_meas_rate, DiffCon.set_meas_delay, DiffCon.set_filter_on,
    Keith.set_filter_window, DiffCon.set_filter_window,
    Keith.set_filter_count, DiffCon.set_filter_count,
    DiffCon.update_num_points, DiffCon.set_num_points,
    KeithInfo.fwindow_lim, KeithInfo.fwindow_def, KeithInfo.fcount_def,
    DconInfo.curr_step_lim, DconInfo.curr_step_def]

/-- C3 (amended): load-then-save reproduces every shared field of the
differential-conductance sub-section and of the Magnet section whose loaded
value passes its setter's validation unchanged: in-bound currents, delays
and windows, integral rates and counts in their registry ranges, and (for
the magnet) an in-bound address/target/segment count, in-bound limits, and
an already-sorted in-bound setpoint list of valid length.  Out-of-bound
values are replaced by registry defaults on load (see the counterexample),
so they do not round-trip; the `fieldUnit`/`timeUnit`/`rampRates` fields
cannot round-trip at all (the save accessors `mag.fieldUnit`/`mag.timeUnit`
do not exist, the load path reads `'time_unit'` while the save path writes
`'timeUnit'`, and `set_ramps_list` raises on every call), and the stale
cross-revision member names in between are resolved as documented on the
definitions. -/
theorem c3_roundtrip :
    (∀ (c : DiffConConfig) (m : DiffCon),
        -105e-3 ≤ c.startCurrent → c.startCurrent ≤ 105e-3 →
        -105e-3 ≤ c.stopCurrent → c.stopCurrent ≤ 105e-3 →
        0 ≤ c.stepCurrent → c.stepCurrent ≤ 105e-3 →
        0 ≤ c.deltaCurrent → c.deltaCurrent ≤ 105e-3 →
        pyInIntRange c.measRate 1 61 = true →
        1e-3 ≤ c.measDelay → c.measDelay ≤ 9999.999 →
        0 ≤ c.filterWindow → c.filterWindow ≤ 10 →
        pyInIntRange c.filterCount 2 301 = true →
        get_keith_diffcon (load_keith_diffcon c m) = c) ∧
    (∀ d : MagConfig,
        pyInIntRange d.address 1 11 = true →
        |d.target| ≤ 3 →
        pyInIntRange d.segs 1 11 = true →
        d.rampSetpoints.Sorted (· ≤ ·) →
        1 ≤ d.rampSetpoints.length → d.rampSetpoints.length ≤ 10 →
        (∀ x ∈ d.rampSetpoints, |x| ≤ MagInfo.field_lim d.fieldUnit) →
        1e-3 ≤ d.voltLimit → d.voltLimit ≤ 6 →
        0 ≤ d.currLimit → d.currLimit ≤ 26.3 →
        (load_mag_config d MagState.init).map get_mag_config = .ok d.toSaved) := by
  constructor
  · rintro ⟨s1, s2, s3, s4, s5, s6, s7, s8, s9⟩ m h1a h1b h2a h2b h3a h3b h4a
      h4b h5 h6a h6b h7a h7b h8
    simp only at h1a h1b h2a h2b h3a h3b h4a h4b h5 h6a h6b h7a h7b h8
    obtain ⟨n9, hn9, h9lo, h9hi⟩ := pyInIntRange_iff.mp h8
    have h9a : (2 : ℚ) ≤ s9 := by
      rw [hn9]; exact_mod_cast h9lo
    have h9b : s9 ≤ 300 := by
      rw [hn9]; exact_mod_cast (by omega : n9 ≤ (300 : ℤ))
    simp only [load_keith_diffcon, get_keith_diffcon, DiffCon.set_curr1,
      DiffCon.set_curr2, DiffCon.set_curr_step, DiffCon.set_curr_delta,
      DiffCon.set_meas_rate, DiffCon.set_meas_delay, DiffCon.set_filter_on,
      Keith.set_filter_window, DiffCon.set_filter_window,
      Keith.set_filter_count, DiffCon.set_filter_count,
      DiffCon.update_num_points, DiffCon.set_num_points,
      KeithInfo.fwindow_lim, KeithInfo.fwindow_def, KeithInfo.fcount_def,
      DconInfo.curr_step_lim, DconInfo.curr_step_def]
    simp [h1a, h1b, h2a, h2b, h3a, h3b, h4a, h4b, h5, h6a, h6b, h7a, h7b,
      h8, h9a, h9b]
  · intro d ha ht hsg hsort hlen1 hlen10 hmem hva hvb hca hcb
    have hsp : Mag.set_setpoints_list d.fieldUnit d.rampSetpoints =
        .ok (pySort d.rampSetpoints) :=
      set_setpoints_list_ok _ _ hlen1 hlen10 hmem
    have hps : pySort d.rampSetpoints = d.rampSetpoints :=
      List.Sorted.insertionSort_eq hsort
    rw [hps] at hsp
    have ht' : ¬(|d.target| > MagInfo.field_lim 1) := by
      rw [show MagInfo.field_lim 1 = (3 : ℚ) from rfl]
      exact not_lt.mpr ht
    simp only [load_mag_config, MagState.init, Mag.set_address,
      Mag.set_target, Mag.set_ramp_segments, Mag.set_volt_limit,
      Mag.set_curr_limit, MagInfo.volt_lim, MagInfo.volt_def,
      MagInfo.curr_lim, MagInfo.curr_def, MagInfo.addr_def, MagInfo.seg_def,
      MagInfo.field_def]
    rw [hsp]
    simp [get_mag_config, MagConfig.toSaved, Except.map, ha, hsg, ht', hva,
      hvb, hca, hcb]

/-- C3, witness: the amended round-trip theorem applied to concrete
in-bound configurations (an in-bound `diffCon` section on the initial
differential-conductance model, and an in-bound magnet section with the
sorted setpoint list `[1, 2]` under the tesla unit). -/
theorem c3_witness :
    get_keith_diffcon (load_keith_diffcon
        ⟨-10e-6, 10e-6, 1e-6, 1e-6, 1, 2e-3, true, 5, 20⟩ DiffCon.init) =
      ⟨-10e-6, 10e-6, 1e-6, 1e-6, 1, 2e-3, true, 5, 20⟩ ∧
    (load_mag_config ⟨2, 1, 1, 1, [1, 2], true, 2, 26.3⟩ MagState.init).map
        get_mag_config =
      .ok (MagConfig.toSaved ⟨2, 1, 1, 1, [1, 2], true, 2, 26.3⟩) :=
  ⟨c3_roundtrip.1 ⟨-10e-6, 10e-6, 1e-6, 1e-6, 1, 2e-3, true, 5, 20⟩
      DiffCon.init (by norm_num) (by norm_num) (by norm_num) (by norm_num)
      (by norm_num) (by norm_num) (by norm_num) (by norm_num)
      (by rw [pyInIntRange_iff]; exact ⟨1, by norm_num, by norm_num, by norm_num⟩)
      (by norm_num) (by norm_num) (by norm_num) (by norm_num)
      (by rw [pyInIntRange_iff]; exact ⟨20, by norm_num, by norm_num, by norm_num⟩),
   c3_roundtrip.2 ⟨2, 1, 1, 1, [1, 2], true, 2, 26.3⟩
      (by rw [pyInIntRange_iff]; exact ⟨2, by norm_num, by norm_num, by norm_num⟩)
      (by rw [show |(1 : ℚ)| = 1 from abs_of_nonneg (by norm_num)]; norm_num)
      (by rw [pyInIntRange_iff]; exact ⟨1, by norm_num, by norm_num, by norm_num⟩)
      (by norm_num [List.sorted_cons])
      (by norm_num) (by norm_num)
      (by
        intro x hx
        rw [show MagInfo.field_lim (1 : Fin 3) = (3 : ℚ) from rfl]
        simp only [List.mem_cons, List.mem_singleton] at hx
        rcases hx with rfl | hx
        · rw [abs_of_nonneg] <;> norm_num
        · rcases hx with rfl | hx
          · rw [abs_of_nonneg] <;> norm_num
          · cases hx)
      (by norm_num) (by norm_num) (by norm_num) (by norm_num)⟩

/-- C5 (code bug, evaluated at the failing input): at source-range index 0
(the 2 nA range) the multiplier key computed by the conversions is
`floor(log10(2e-9)/3) = -3`, which is not among the multiplier-table keys
`{-1, 0, 1}`, so both `curr_conv_mult` and `curr_conv_div` fail with a
`KeyError` (modelled `none`) instead of converting with the claimed `1e-9`
multiplier; the same holds with key `-2` for indices 3–5.  For indices 6–8
the computed key is `-1`, so both conversions use the `1e-9` multiplier
(not the claimed `1e-3`), and there the round trip
`curr_conv_div(curr_conv_mult(x)) = x` does hold. -/
theorem c5_keyerror_eval :
    Keith.curr_conv_mult 0 1 = none ∧
    Keith.curr_conv_div 0 1 = none ∧
    Keith.mult_idx 0 = -3 ∧ Keith.mult_idx 3 = -2 ∧ Keith.mult_idx 6 = -1 ∧
    Keith.curr_conv_mult 6 1 = some 1e-9 ∧
    (∀ x : ℚ, (Keith.curr_conv_mult 6 x).bind (Keith.curr_conv_div 6) = some x) := by
  have h0 : Keith.mult_idx 0 = -3 := by
    unfold Keith.mult_idx
    rw [show Keith.log10_source_range 0 = -8.698970004336 from rfl]
    norm_num
  have h3 : Keith.mult_idx 3 = -2 := by
    unfold Keith.mult_idx
    rw [show Keith.log10_source_range 3 = -5.698970004336 from rfl]
    norm_num
  have h6 : Keith.mult_idx 6 = -1 := by
    unfold Keith.mult_idx
    rw [show Keith.log10_source_range 6 = -2.698970004336 from rfl]
    norm_num
  refine ⟨?_, ?_, h0, h3, h6, ?_, ?_⟩
  · simp [Keith.curr_conv_mult, h0, Keith.source_range_mult_switch]
  · simp [Keith.curr_conv_div, h0, Keith.source_range_mult_switch]
  · simp [Keith.curr_conv_mult, h6, Keith.source_range_mult_switch]
  · intro x
    simp only [Keith.curr_conv_mult, Keith.curr_conv_div, h6,
      Keith.source_range_mult_switch]
    norm_num

/-- C6 (code bug, the data-reshaping evaluated at the failing input): a
25-value comma-delimited buffer yields exactly 5 tab-delimited rows (each a
consecutive 5-tuple of the raw values, i.e. in the buffer's column order),
the 5 per-column lists each of length 5, and the header block prepended to
the joined rows.  (In the source the surrounding call crashes before
returning: `get_header_string` calls `Keith.meas_type`, which reads the
never-defined attribute `meas_type_switch`, and then methods
`curr_delta_text`/argumentless `curr1_text` that do not exist.) -/
theorem c6_get_data_eval :
    Keith.get_data "HDR\n"
        "r1,t1,s1,a1,p1,r2,t2,s2,a2,p2,r3,t3,s3,a3,p3,r4,t4,s4,a4,p4,r5,t5,s5,a5,p5" =
      ("HDR\nr1\tt1\ts1\ta1\tp1\nr2\tt2\ts2\ta2\tp2\nr3\tt3\ts3\ta3\tp3\nr4\tt4\ts4\ta4\tp4\nr5\tt5\ts5\ta5\tp5",
       ["r1\tt1\ts1\ta1\tp1", "r2\tt2\ts2\ta2\tp2", "r3\tt3\ts3\ta3\tp3",
        "r4\tt4\ts4\ta4\tp4", "r5\tt5\ts5\ta5\tp5"],
       [["r1", "r2", "r3", "r4", "r5"], ["t1", "t2", "t3", "t4", "t5"],
        ["s1", "s2", "s3", "s4", "s5"], ["a1", "a2", "a3", "a4", "a5"],
        ["p1", "p2", "p3", "p4", "p5"]]) := by
  set_option maxRecDepth 16000 in decide

/-- C8 (code bug, evaluated at the failing input): with address 2 and a
resource list whose only entry `"ASRL7::INSTR"` does not contain `"2"`, the
claim predicts that no resource is opened; the code's filter condition
`(str(com) and 'ASRL') in x` evaluates to `'ASRL' in x` (Python `and`
returns its second operand because `str(com)` is truthy), so the address is
ignored and the resource is opened anyway. -/
theorem c8_check_connected_eval :
    vMag.check_connected 2 ["ASRL7::INSTR"] = some "ASRL7::INSTR" ∧
    strContains "2" "ASRL7::INSTR" = false ∧
    vMag.check_connected 2 [] = none := by
  refine ⟨by decide, by decide, rfl⟩

/-- C10, witness: the frame theorem applied at the unrecognized output name
`"foo"`, value 0, and a concrete state. -/
theorem c10_witness :
    Temp.set_setpoint 0 "foo" ⟨4, 4, 1, 1, 0, 0⟩ =
      (none, (⟨4, 4, 1, 1, 0, 0⟩ : Temp)) ∧
    Temp.set_ramp 0 "foo" ⟨4, 4, 1, 1, 0, 0⟩ =
      (none, (⟨4, 4, 1, 1, 0, 0⟩ : Temp)) ∧
    Temp.set_power 0 "foo" ⟨4, 4, 1, 1, 0, 0⟩ =
      (none, (⟨4, 4, 1, 1, 0, 0⟩ : Temp)) :=
  c10_unknown_output_frame "foo" (by decide) 0 ⟨4, 4, 1, 1, 0, 0⟩

end ProbeStation
